import Mathlib

/-!
Shallow embedding of the chicken-coop door controller
(house_codes/chicken_coop.py, door_motor.py, state_log_manager.py).

Python strings are modelled as `List Char`, Python `datetime.time` as a
record of hour/minute integers built through a checked constructor,
fallible Python code as `Except PyErr`, and the module-level global
variable `action` consulted by `TimeFrame.openclose_check` as an explicit
parameter.
-/

deriving instance DecidableEq for Except

/-- Exceptions raised by the modelled Python code. -/
inductive PyErr where
  | valueError
  | indexError
  | eofError
  deriving DecidableEq, Repr

/-- The two door actions / persisted door states, `'open'` and `'close'`. -/
inductive Door where
  | opened
  | closed
  deriving DecidableEq, Repr

/-- Turn a Lean string literal into the `List Char` model of Python strings. -/
def s2l (s : String) : List Char := s.data

/-- The Python string value of a `Door` (`'open'` or `'close'`). -/
def door_str : Door → List Char
  | .opened => s2l "open"
  | .closed => s2l "close"

/-- Model of `datetime.time`: hour and minute (seconds are always zero in
the constructed schedule times). -/
structure Time where
  hour : Int
  minute : Int
  deriving DecidableEq, Repr

/-- Lexicographic strict comparison of `datetime.time` values. -/
def timeLT (a b : Time) : Bool :=
  decide (a.hour < b.hour ∨ (a.hour = b.hour ∧ a.minute < b.minute))

/-- Lexicographic non-strict comparison of `datetime.time` values. -/
def timeLE (a b : Time) : Bool :=
  decide (a.hour < b.hour ∨ (a.hour = b.hour ∧ a.minute ≤ b.minute))

/-- Model of `datetime.time(hour, minute)`: rejects out-of-range fields with
`ValueError`. -/
def datetime_time (h m : Int) : Except PyErr Time :=
  if 0 ≤ h ∧ h ≤ 23 ∧ 0 ≤ m ∧ m ≤ 59 then .ok ⟨h, m⟩ else .error .valueError

/-- Function `is_time_between(begin_time, end_time, check_time)` from chicken_coop.py. -/
def is_time_between (begin_t end_t check_t : Time) : Bool :=
  if timeLT begin_t end_t then
    timeLE begin_t check_t && timeLE check_t end_t
  else
    timeLE begin_t check_t || timeLE check_t end_t

/-- Function `is_time_greater(time_limit, check_time)` from chicken_coop.py. -/
def is_time_greater (time_limit check_t : Time) : Bool :=
  timeLT time_limit check_t

/-- The schedule record built by `TimeFrame.__init__`. -/
structure TimeFrame where
  open_frame : Time × Time
  open_check : Time × Time
  close_frame : Time × Time
  close_check : Time × Time
  open_limit : Time
  close_limit : Time
  deriving DecidableEq, Repr

/-- Constructor `TimeFrame.__init__(early_open, late_open, early_close, late_close)`:
constructs every `datetime.time` in source order, propagating the first
`ValueError`. -/
def TimeFrame.init (early_open late_open early_close late_close : Int) :
    Except PyErr TimeFrame := do
  let of1 ← datetime_time early_open 0
  let of2 ← datetime_time late_open 0
  let oc1 ← datetime_time (early_open - 2) 30
  let oc2 ← datetime_time (late_open - 2) 30
  let cf1 ← datetime_time early_close 0
  let cf2 ← datetime_time late_close 0
  let cc1 ← datetime_time (early_close - 2) 30
  let cc2 ← datetime_time (late_close - 2) 30
  let ol ← datetime_time late_open 0
  let cl ← datetime_time late_close 0
  .ok ⟨(of1, of2), (oc1, oc2), (cf1, cf2), (cc1, cc2), ol, cl⟩

/-- Method `TimeFrame.openclose_check(action_frame)`.  `door_state` is the string
returned by `check_door_state()['door_state']`; `globalAction` is the
module-level variable `action` that the source's `return action` reads. -/
def openclose_check (tf : TimeFrame) (now : Time) (door_state : List Char)
    (globalAction : Option Door) (action_frame : Option Door) : Option Door :=
  let af :=
    if is_time_between tf.open_frame.1 tf.open_frame.2 now then some Door.opened
    else if is_time_between tf.close_frame.1 tf.close_frame.2 now then some Door.closed
    else action_frame
  match af with
  | some a => if door_state = door_str a then globalAction else none
  | none => none

/-- Method `TimeFrame.limit_check()`, with the same extra parameters as
`openclose_check`. -/
def limit_check (tf : TimeFrame) (now : Time) (door_state : List Char)
    (globalAction : Option Door) : Option Door :=
  let la : Option Door := none
  let la :=
    if is_time_greater tf.open_limit now then
      (if openclose_check tf now door_state globalAction (some Door.opened)
          = some Door.opened then some Door.opened else la)
    else la
  let la :=
    if is_time_greater tf.close_limit now then
      (if openclose_check tf now door_state globalAction (some Door.closed)
          = some Door.closed then some Door.closed else la)
    else la
  la

/-- Spec-side model of `permittedAction`, as the specification words it: the frame action, if
one is found for `now`, is returned exactly when it differs from the
persisted `door_state`; otherwise none. -/
def permittedAction_spec (tf : TimeFrame) (now : Time)
    (door_state : List Char) : Option Door :=
  match (if is_time_between tf.open_frame.1 tf.open_frame.2 now then some Door.opened
         else if is_time_between tf.close_frame.1 tf.close_frame.2 now then some Door.closed
         else none) with
  | some a => if door_state = door_str a then none else some a
  | none => none

/-- Spec-side model of `limitAction`, as the specification words it: past a hard deadline with
the door not yet in the corresponding state, yield the forced action. -/
def limitAction_spec (tf : TimeFrame) (now : Time)
    (door_state : List Char) : Option Door :=
  let la : Option Door := none
  let la :=
    if is_time_greater tf.open_limit now ∧ door_state ≠ door_str Door.opened then
      some Door.opened else la
  let la :=
    if is_time_greater tf.close_limit now ∧ door_state ≠ door_str Door.closed then
      some Door.closed else la
  la

/-- The `TimeFrame` built from the default CLI configuration (5, 7, 17, 20). -/
def tf0 : TimeFrame :=
  ⟨(⟨5, 0⟩, ⟨7, 0⟩), (⟨3, 30⟩, ⟨5, 30⟩), (⟨17, 0⟩, ⟨20, 0⟩), (⟨15, 30⟩, ⟨18, 30⟩),
    ⟨7, 0⟩, ⟨20, 0⟩⟩

/-! Section: door_motor.py: step table and motor driver -/

/-- Model of `datetime.datetime`: a timestamp with second and sub-second
fields (Python's microsecond resolution). -/
structure Datetime where
  year : Nat
  month : Nat
  day : Nat
  hour : Nat
  minute : Nat
  second : Nat
  microsecond : Nat
  deriving DecidableEq, Repr

/-- The dictionary returned by `turn_motor`. -/
structure DoorInfo where
  door_state : Door
  time : Datetime
  deriving DecidableEq, Repr

/-- Python list indexing `l[i]`, including negative-index access from the
end; `none` models `IndexError`. -/
def pyIndex (l : List α) (i : Int) : Option α :=
  if 0 ≤ i then l.get? i.toNat
  else if (-i).toNat ≤ l.length then l.get? (l.length - (-i).toNat)
  else none

/-- The 8-row half-step sequence built in `set_sequence`. -/
def seq_half : List (List Nat) :=
  [[1, 0, 0, 1],
   [1, 0, 0, 0],
   [1, 1, 0, 0],
   [0, 1, 0, 0],
   [0, 1, 1, 0],
   [0, 0, 1, 0],
   [0, 0, 1, 1],
   [0, 0, 0, 1]]

/-- The `while i < len(seq)` loop of `set_sequence` for step 2: collect the
rows at indices 1, 3, 5, ... in order. -/
def odd_index_rows : List α → List α
  | [] => []
  | [_] => []
  | _ :: b :: rest => b :: odd_index_rows rest

/-- Function `set_sequence(step)`: half-step table for 1, full-step table for 2,
implicit `None` otherwise. -/
def set_sequence (step : Nat) : Option (List (List Nat)) :=
  if step = 1 then some seq_half
  else if step = 2 then some (odd_index_rows seq_half)
  else none

/-- The `while i < seq_steps` loop of `turn_motor`: returns the rows
written to the pins, in order.  The cursor update mirrors the source: after
writing `seq[counter]`, reset to 0 when `abs(counter) == len(seq) - 1`,
else advance by `step_dir` when `abs(counter) < len(seq) - 1`. -/
def turn_motor_loop (seq : List (List Nat)) (step_dir : Int) :
    Nat → Int → Except PyErr (List (List Nat))
  | 0, _ => .ok []
  | n + 1, counter =>
    match pyIndex seq counter with
    | none => .error .indexError
    | some row =>
      Except.map (fun tr => row :: tr)
        (turn_motor_loop seq step_dir n
          (if counter.natAbs = seq.length - 1 then 0
           else if counter.natAbs < seq.length - 1 then counter + step_dir
           else counter))

/-- Function `turn_motor(action, seq, seq_steps, gpio_pins, wait_time)`: sets the
direction from the action, runs the step loop, and returns the trace of
row-writes together with the returned `door_state` dictionary. -/
def turn_motor (action : Door) (seq : List (List Nat)) (seq_steps : Nat)
    (now : Datetime) : Except PyErr (List (List Nat) × DoorInfo) :=
  let step_dir : Int := match action with | .opened => 1 | .closed => -1
  Except.map (fun tr => (tr, ⟨action, now⟩)) (turn_motor_loop seq step_dir seq_steps 0)

/-- Row `i` of the half-step table. -/
def rowAt (i : Nat) : List Nat := seq_half.getD i []

/-! Section: chicken_coop.py: trend classification and the sampling window -/

/-- The `for rec in light_list` loop of `trend_check`, counting increases
and decreases while carrying the previous value. -/
def trend_check_loop (val : ℚ) (rest : List ℚ) (inc dec : Nat) : Nat × Nat :=
  match rest with
  | [] => (inc, dec)
  | rec :: more =>
    if val < rec then trend_check_loop rec more (inc + 1) dec
    else trend_check_loop rec more inc (dec + 1)

/-- Function `trend_check(light_list)`: pops the first element (mutating the
caller's list), walks the remainder pairwise, and classifies.  The result
is the returned action together with the caller's list after the call;
`IndexError` models `pop(0)` on an empty list. -/
def trend_check (light_list : List ℚ) : Except PyErr (Option Door × List ℚ) :=
  match light_list with
  | [] => .error .indexError
  | val :: rest =>
    let counts := trend_check_loop val rest 0 0
    let action : Option Door :=
      if counts.1 = 0 then some Door.closed
      else if counts.2 = 0 then some Door.opened
      else none
    .ok (action, rest)

/-- Number of consecutive pairs of the window with `value[i+1] > value[i]`
(the specification's `increase` count). -/
def increaseCount (l : List ℚ) : Nat :=
  (l.zip l.tail).countP (fun p => decide (p.1 < p.2))

/-- Number of consecutive pairs with `value[i+1] ≤ value[i]` (ties count
as non-increase; the specification's `decrease` count). -/
def decreaseCount (l : List ℚ) : Nat :=
  (l.zip l.tail).countP (fun p => decide (¬ p.1 < p.2))

/-- The reading window the control loop hands to `trend_check` in the
cycle whose averaged reading is `reading`: the loop body rebuilds
`rec_list = [0]*trend_len` and then executes
`rec_list = rec_list[1:] + [reading]`. -/
def window_at_deciding (trend_len : Nat) (reading : ℚ) : List ℚ :=
  (List.replicate trend_len (0 : ℚ)).drop 1 ++ [reading]

/-- The Deciding-step windows of successive control cycles, one per
reading: each iteration rebuilds its window from scratch, so the window of
a cycle depends only on that cycle's reading. -/
def coop_windows (trend_len : Nat) (readings : List ℚ) : List (List ℚ) :=
  readings.map (window_at_deciding trend_len)

/-- Modelled from the spec: pushing one reading into a fixed-capacity FIFO
window evicts the oldest entry. -/
def fifo_push (w : List ℚ) (r : ℚ) : List ℚ := w.drop 1 ++ [r]

/-- Modelled from the spec: the persistent FIFO window after feeding the
given readings, starting from the all-zero window of capacity
`trend_len`. -/
def fifo_window_spec (trend_len : Nat) (readings : List ℚ) : List ℚ :=
  readings.foldl fifo_push (List.replicate trend_len (0 : ℚ))

/-! Section: state_log_manager.py: persistence and bootstrap -/

/-- The whitespace characters Python `str.split()` splits on. -/
def pyIsSpace (c : Char) : Bool :=
  c = ' ' || c = '\t' || c = '\n' || c = '\r' || c = '\x0b' || c = '\x0c'

/-- Python `str.lower()` (ASCII case fold, which covers the operator
input alphabet). -/
def pyLower (s : List Char) : List Char := s.map Char.toLower

/-- Python `text.replace('\r', '\n')`. -/
def replace_cr : List Char → List Char
  | [] => []
  | c :: rest => (if c = '\r' then '\n' else c) :: replace_cr rest

/-- Python `text.replace('\n\n', '\n')` (left-to-right, non-overlapping,
the replacement is not rescanned). -/
def replace_nlnl : List Char → List Char
  | [] => []
  | [c] => [c]
  | c :: c2 :: rest =>
    if c = '\n' ∧ c2 = '\n' then '\n' :: replace_nlnl rest
    else c :: replace_nlnl (c2 :: rest)

/-- Worker for `str.split('\n')`. -/
def split_nl_aux (acc : List Char) : List Char → List (List Char)
  | [] => [acc.reverse]
  | c :: rest =>
    if c = '\n' then acc.reverse :: split_nl_aux [] rest
    else split_nl_aux (c :: acc) rest

/-- Python `text.split('\n')`. -/
def split_nl (s : List Char) : List (List Char) := split_nl_aux [] s

/-- Python substring containment `pat in s`. -/
def py_contains (pat : List Char) : List Char → Bool
  | [] => decide (pat = [])
  | c :: rest => pat.isPrefixOf (c :: rest) || py_contains pat rest

/-- Worker for `s.split()`: `acc` holds the (reversed) token in progress. -/
def py_split_ws_aux : List Char → List Char → List (List Char)
  | [], acc => if acc = [] then [] else [acc.reverse]
  | c :: rest, acc =>
    if pyIsSpace c then
      (if acc = [] then py_split_ws_aux rest []
       else acc.reverse :: py_split_ws_aux rest [])
    else py_split_ws_aux rest (c :: acc)

/-- Python `s.split()`: split on whitespace runs, no empty fields. -/
def py_split_ws (s : List Char) : List (List Char) := py_split_ws_aux s []

/-- Python `s.split(maxsplit=1)`: first whitespace-delimited token, then
the remainder with the separating whitespace stripped. -/
def py_split_ws1 (s : List Char) : List (List Char) :=
  match s with
  | [] => []
  | c :: rest =>
    if pyIsSpace c then py_split_ws1 rest
    else
      let tok := c :: rest.takeWhile (fun x => ! pyIsSpace x)
      let rem := (rest.dropWhile (fun x => ! pyIsSpace x)).dropWhile pyIsSpace
      if rem = [] then [tok] else [tok, rem]

/-- The `for line in log_text` loop of `check_door_state`: latch the last
token of a `door_state` line and the remainder of a `time` line;
`line.split()[-1]` on an empty split raises `IndexError`. -/
def parse_state_lines : List (List Char) → List Char × List Char →
    Except PyErr (List Char × List Char)
  | [], st => .ok st
  | line :: rest, (state, tm) =>
    if py_contains (s2l "door_state") line then
      match (py_split_ws line).getLast? with
      | some tok => parse_state_lines rest (tok, tm)
      | none => .error .indexError
    else if py_contains (s2l "time") line then
      match (py_split_ws1 line).getLast? with
      | some tok => parse_state_lines rest (state, tok)
      | none => .error .indexError
    else parse_state_lines rest (state, tm)

/-- The `time` entry of the dictionary returned by `check_door_state`: a
string when parsed from the file, a `datetime` from the bootstrap path. -/
inductive TimeVal where
  | str (s : List Char)
  | dt (t : Datetime)
  deriving DecidableEq, Repr

/-- The dictionary returned by `check_door_state`. -/
structure StateLex where
  door_state : List Char
  time : TimeVal
  deriving DecidableEq, Repr

/-- The `while True` operator-input loop of the bootstrap path: consume
inputs until one lowercases to `y` or `n`; `none` models an exhausted
input stream (the source would keep prompting). -/
def bootstrap_loop : List (List Char) → Option (List Char)
  | [] => none
  | inp :: rest =>
    let low := pyLower inp
    if low = s2l "y" || low = s2l "n" then some low else bootstrap_loop rest

/-- Function `check_door_state(file_path)`.  `content` is the file's text when the
path exists (`none` models `FileNotFoundError`); `inputs` is the operator
input stream; `now` is `datetime.datetime.now()`. -/
def check_door_state (content : Option (List Char)) (inputs : List (List Char))
    (now : Datetime) : Except PyErr StateLex :=
  match content with
  | some text =>
    let lines := split_nl (replace_nlnl (replace_cr text))
    (parse_state_lines lines (s2l "", s2l "")).map (fun st => ⟨st.1, .str st.2⟩)
  | none =>
    match bootstrap_loop inputs with
    | none => .error .eofError
    | some fb =>
      let ds := if fb = s2l "y" then s2l "open" else s2l "close"
      .ok ⟨ds, .dt now⟩

/-- Decimal digit characters used by `strftime`'s zero-padded fields. -/
def dchar : Nat → Char
  | 0 => '0'
  | 1 => '1'
  | 2 => '2'
  | 3 => '3'
  | 4 => '4'
  | 5 => '5'
  | 6 => '6'
  | 7 => '7'
  | 8 => '8'
  | _ => '9'

/-- Two-digit zero-padded decimal (`%m`, `%d`, `%H`, `%M`, `%S`). -/
def pad2 (n : Nat) : List Char := [dchar (n / 10), dchar (n % 10)]

/-- Four-digit zero-padded decimal (`%Y` for datetime's year range). -/
def pad4 (n : Nat) : List Char :=
  [dchar (n / 1000), dchar (n / 100 % 10), dchar (n / 10 % 10), dchar (n % 10)]

/-- Model of `datetime.strftime(t, '%m/%d/%Y, %H:%M:%S')`. -/
def fmt_datetime (t : Datetime) : List Char :=
  pad2 t.month ++ [ '/' ] ++ pad2 t.day ++ [ '/' ] ++ pad4 t.year ++ s2l ", " ++
    pad2 t.hour ++ [ ':' ] ++ pad2 t.minute ++ [ ':' ] ++ pad2 t.second

/-- The field ranges the `datetime.datetime` constructor enforces. -/
def validDT (t : Datetime) : Prop :=
  1 ≤ t.year ∧ t.year ≤ 9999 ∧ 1 ≤ t.month ∧ t.month ≤ 12 ∧
    1 ≤ t.day ∧ t.day ≤ 31 ∧ t.hour ≤ 23 ∧ t.minute ≤ 59 ∧ t.second ≤ 59 ∧
    t.microsecond ≤ 999999

instance (t : Datetime) : Decidable (validDT t) := by
  unfold validDT
  infer_instance

/-- The timestamp truncated to the precision of the serialized format
(seconds). -/
def truncSec (t : Datetime) : Nat × Nat × Nat × Nat × Nat × Nat :=
  (t.year, t.month, t.day, t.hour, t.minute, t.second)

/-- Method `StateLogManager.set_door_state`: the two-line state-log text. -/
def set_door_state (door_state : List Char) (t : Datetime) : List Char :=
  s2l "door_state: " ++ door_state ++ [ '\n' ] ++ s2l "time: " ++ fmt_datetime t

/-- Model of `Path(p).write_text(content)` over an association-list file system. -/
def fs_write (fs : List (List Char × List Char)) (path content : List Char) :
    List (List Char × List Char) := (path, content) :: fs

/-- Model of `Path(p).read_text()` over the association-list file system (`none`
models `FileNotFoundError`). -/
def fs_read (fs : List (List Char × List Char)) (path : List Char) :
    Option (List Char) :=
  match fs with
  | [] => none
  | (p, c) :: rest => if p = path then some c else fs_read rest path

/-- Running `StateLogManager(log_data, log_loc)` on a dictionary holding a
door state and a timestamp: serialize with `set_door_state` and overwrite
the file with `write_state`. -/
def state_log_manager (fs : List (List Char × List Char)) (path : List Char)
    (d : Door) (t : Datetime) : List (List Char × List Char) :=
  fs_write fs path (set_door_state (door_str d) t)

/-- Shift a time of day back by `k` minutes, wrapping past midnight: the
specification's notion of a bound "shifted back" by a duration. -/
def sub_minutes (t : Time) (k : Int) : Time :=
  let tot := (t.hour * 60 + t.minute - k) % 1440
  ⟨tot / 60, tot % 60⟩

/-- A concrete timestamp (December 1 2020, 06:15:03) used as a witness
input. -/
def dt0 : Datetime := ⟨2020, 12, 1, 6, 15, 3, 0⟩

/-! Section: Claims C1, C2: openclose_check / limit_check against the specification -/

/-- Claim C1: the claim states that `openclose_check` returns a found frame
action exactly when it differs from the persisted `door_state`.  The code
does the opposite: at 06:00 (inside the default `open_frame`) with
persisted state `close` it returns `None`, where the specification's
`permittedAction` returns `open`; and when the persisted state equals the
frame action it returns the module global `action` (so a stale
`action = open` is returned with the door already open). -/
theorem openclose_check_code_divergence :
    TimeFrame.init 5 7 17 20 = .ok tf0 ∧
    is_time_between tf0.open_frame.1 tf0.open_frame.2 ⟨6, 0⟩ = true ∧
    openclose_check tf0 ⟨6, 0⟩ (s2l "close") none none = none ∧
    permittedAction_spec tf0 ⟨6, 0⟩ (s2l "close") = some Door.opened ∧
    openclose_check tf0 ⟨6, 0⟩ (s2l "open") (some Door.opened) none
      = some Door.opened :=
  ⟨rfl, by decide, by decide, by decide, by decide⟩

/-- Claim C2: the claim states that `limit_check` forces `close` once `now`
is past `close_limit` with the door not yet closed.  In the code the inner
`openclose_check('close')` returns `None` whenever the persisted state
differs from the frame action, so at 20:01 with persisted state `open` the
code yields `None` where the specification's `limitAction` yields the
forced `close` (the module global `action` is `None` at every call site). -/
theorem limit_check_code_divergence :
    TimeFrame.init 5 7 17 20 = .ok tf0 ∧
    is_time_greater tf0.close_limit ⟨20, 1⟩ = true ∧
    limit_check tf0 ⟨20, 1⟩ (s2l "open") none = none ∧
    limitAction_spec tf0 ⟨20, 1⟩ (s2l "open") = some Door.closed ∧
    limit_check tf0 ⟨20, 1⟩ (s2l "close") none = none :=
  ⟨rfl, by decide, by decide, by decide, by decide⟩

/-! Section: Claim C5: the sampling window is rebuilt from zeros every cycle -/

/-- Claim C5: the claim states the reading window is a persistent FIFO, so
after cycles with readings 1 and 2 the Deciding window would be
`[0, 0, 0, 1, 2]`.  The loop body instead rebuilds `rec_list` from zeros
each cycle, so the second Deciding window is `[0, 0, 0, 0, 2]` and the
earlier reading 1 is lost. -/
theorem sampling_window_not_persistent :
    coop_windows 5 [1, 2] = [[0, 0, 0, 0, 1], [0, 0, 0, 0, 2]] ∧
    fifo_window_spec 5 [1, 2] = [0, 0, 0, 1, 2] ∧
    window_at_deciding 5 2 ≠ fifo_window_spec 5 [1, 2] ∧
    (1 : ℚ) ∉ window_at_deciding 5 2 :=
  ⟨by decide, by decide, by decide, by decide⟩

/-! Section: Claim C9: schedule construction fails for early_open 0 or 1 -/

/-- Claim C9: with `early_open` 0 or 1 (both CLI-accepted) and the other
hours anywhere in their CLI ranges, `TimeFrame.__init__` raises
`ValueError`: the `open_check` start is `datetime.time(early_open - 2, 30)`
with a negative hour. -/
theorem coop_init_fails_small_early_open (a b c d : Int) (ha : a = 0 ∨ a = 1)
    (hb0 : 0 ≤ b) (hb1 : b ≤ 12) (_hc0 : 13 ≤ c) (_hc1 : c ≤ 23)
    (_hd0 : 13 ≤ d) (_hd1 : d ≤ 23) :
    TimeFrame.init a b c d = .error .valueError := by
  have h2 : datetime_time b 0 = .ok ⟨b, 0⟩ := by
    unfold datetime_time
    rw [if_pos]
    exact ⟨hb0, by omega, by norm_num, by norm_num⟩
  rcases ha with rfl | rfl <;> (unfold TimeFrame.init; rw [h2]; rfl)

/-- Witness for C9 at the concrete configuration (0, 7, 17, 20). -/
theorem coop_init_fails_small_early_open_witness :
    TimeFrame.init 0 7 17 20 = .error .valueError :=
  coop_init_fails_small_early_open 0 7 17 20 (Or.inl rfl) (by norm_num)
    (by norm_num) (by norm_num) (by norm_num) (by norm_num) (by norm_num)

/-! Section: Claim C10: trend_check consumes the head of the caller's list -/

/-- Claim C10: `trend_check` pops the first (oldest) element of the list the
caller passed, so after the call the caller's window is the tail, one
shorter than before. -/
theorem trend_check_mutates_window (l : List ℚ) (h : l ≠ []) :
    ∃ a, trend_check l = .ok (a, l.tail) ∧ l.tail.length + 1 = l.length := by
  rcases l with _ | ⟨v, rest⟩
  · exact absurd rfl h
  · exact ⟨_, rfl, rfl⟩

/-- Witness for C10 on the singleton window `[3]`. -/
theorem trend_check_mutates_window_witness :
    ∃ a, trend_check [3] = .ok (a, ([3] : List ℚ).tail) ∧
      ([3] : List ℚ).tail.length + 1 = ([3] : List ℚ).length :=
  trend_check_mutates_window [3] (by decide)

/-! Section: Claim C8: the interactive bootstrap of check_door_state -/

/-- Claim C8 counterexample: the claim says every operator input other than
`'y'` or `'n'` re-prompts, so on the input stream `["Y", "n"]` the first
entry would be discarded and the result would be the closed state.  The
code lowercases the input first, so `"Y"` is accepted immediately and the
result is the open state. -/
theorem check_door_state_bootstrap_counterexample :
    check_door_state none [s2l "Y", s2l "n"] dt0 = .ok ⟨s2l "open", .dt dt0⟩ ∧
    s2l "Y" ≠ s2l "y" ∧ s2l "Y" ≠ s2l "n" :=
  ⟨by decide, by decide, by decide⟩

/-- Claim C8 as amended: with a missing state file, `check_door_state`
re-prompts on every input whose lowercasing is neither `'y'` nor `'n'`; an
input lowercasing to `'y'` yields the open state with the current time, and
one lowercasing to `'n'` yields the closed state with the current time. -/
theorem check_door_state_bootstrap_amended (inp : List Char)
    (rest : List (List Char)) (now : Datetime) :
    (pyLower inp = s2l "y" →
      check_door_state none (inp :: rest) now = .ok ⟨s2l "open", .dt now⟩) ∧
    (pyLower inp = s2l "n" →
      check_door_state none (inp :: rest) now = .ok ⟨s2l "close", .dt now⟩) ∧
    (pyLower inp ≠ s2l "y" → pyLower inp ≠ s2l "n" →
      check_door_state none (inp :: rest) now = check_door_state none rest now) := by
  refine ⟨fun h => ?_, fun h => ?_, fun h1 h2 => ?_⟩
  · simp [check_door_state, bootstrap_loop, h, s2l]
  · simp [check_door_state, bootstrap_loop, h, s2l]
  · simp [check_door_state, bootstrap_loop, h1, h2]

/-- Witness for the amended C8 at input `"y"`. -/
theorem check_door_state_bootstrap_amended_witness :
    check_door_state none [s2l "y"] dt0 = .ok ⟨s2l "open", .dt dt0⟩ :=
  (check_door_state_bootstrap_amended (s2l "y") [] dt0).1 (by decide)

/-! Section: Claim C6: the pre-check windows are shifted back 1h30m, not 2h30m -/

/-- Claim C6 counterexample: with the default configuration the claim would
put the `open_check` start 2h30m before the 05:00 `open_frame` start, at
02:30; the code builds `datetime.time(early_open - 2, 30)` = 03:30. -/
theorem coop_check_window_shift_counterexample :
    TimeFrame.init 5 7 17 20 = .ok tf0 ∧
    tf0.open_check.1 = ⟨3, 30⟩ ∧
    sub_minutes tf0.open_frame.1 150 = ⟨2, 30⟩ ∧
    tf0.open_check.1 ≠ sub_minutes tf0.open_frame.1 150 :=
  ⟨rfl, by decide, by decide, by decide⟩

/-! Section: Claim C4: row order of turn_motor -/

/-- Forward indexing into the half-step table. -/
theorem pyIndex_seq_half_pos :
    ∀ c : Nat, c < 8 → pyIndex seq_half (c : Int) = some (rowAt c) := by decide

/-- Negative (from-the-end) indexing into the half-step table. -/
theorem pyIndex_seq_half_neg :
    ∀ c : Nat, c < 8 → pyIndex seq_half (-(c : Int)) = some (rowAt ((8 - c) % 8)) := by
  decide

/-- The forward cursor update of `turn_motor` realizes increment mod 8. -/
theorem turn_motor_cursor_pos (c : Nat) (hc : c < 8) :
    (if ((c : Int)).natAbs = seq_half.length - 1 then (0 : Int)
     else if ((c : Int)).natAbs < seq_half.length - 1 then (c : Int) + 1
     else (c : Int)) = (((c + 1) % 8 : Nat) : Int) := by
  have hlen : seq_half.length = 8 := by decide
  rw [hlen]
  simp only [Int.natAbs_ofNat]
  split_ifs with h1 h2
  · rw [h1]
    norm_num
  · rw [Nat.mod_eq_of_lt (by omega)]
    push_cast
    ring
  · omega

/-- The backward cursor update of `turn_motor` realizes decrement mod 8 on
negated cursors. -/
theorem turn_motor_cursor_neg (c : Nat) (hc : c < 8) :
    (if (-(c : Int)).natAbs = seq_half.length - 1 then (0 : Int)
     else if (-(c : Int)).natAbs < seq_half.length - 1 then -(c : Int) + (-1)
     else -(c : Int)) = -(((c + 1) % 8 : Nat) : Int) := by
  have hlen : seq_half.length = 8 := by decide
  rw [hlen]
  simp only [Int.natAbs_neg, Int.natAbs_ofNat]
  split_ifs with h1 h2
  · rw [h1]
    norm_num
  · rw [Nat.mod_eq_of_lt (by omega)]
    push_cast
    ring
  · omega

/-- Closed form of the step loop in the opening direction: starting at
cursor `c < 8`, step `k` writes table row `(c + k) % 8`. -/
theorem turn_motor_loop_open (n : Nat) : ∀ c : Nat, c < 8 →
    turn_motor_loop seq_half 1 n (c : Int) =
      .ok ((List.range n).map fun k => rowAt ((c + k) % 8)) := by
  induction n with
  | zero =>
    intro c hc
    simp [turn_motor_loop]
  | succ n ih =>
    intro c hc
    rw [turn_motor_loop, pyIndex_seq_half_pos c hc, turn_motor_cursor_pos c hc,
      ih ((c + 1) % 8) (by omega)]
    simp only [Except.map, List.range_succ_eq_map, List.map_cons, List.map_map]
    congr 1
    congr 1
    · congr 1
      omega
    · congr 1
      funext k
      simp only [Function.comp]
      congr 1
      omega

/-- Closed form of the step loop in the closing direction: starting at
cursor `-c` with `c < 8`, step `k` writes table row `(8 - (c + k) % 8) % 8`. -/
theorem turn_motor_loop_close (n : Nat) : ∀ c : Nat, c < 8 →
    turn_motor_loop seq_half (-1) n (-(c : Int)) =
      .ok ((List.range n).map fun k => rowAt ((8 - (c + k) % 8) % 8)) := by
  induction n with
  | zero =>
    intro c hc
    simp [turn_motor_loop]
  | succ n ih =>
    intro c hc
    rw [turn_motor_loop, pyIndex_seq_half_neg c hc, turn_motor_cursor_neg c hc,
      ih ((c + 1) % 8) (by omega)]
    simp only [Except.map, List.range_succ_eq_map, List.map_cons, List.map_map]
    congr 1
    congr 1
    · congr 1
      omega
    · congr 1
      funext k
      simp only [Function.comp]
      congr 1
      omega

/-- Claim C4: on the 8-row half-step table, `turn_motor` with action `open`
performs exactly `seq_steps` row-writes in forward order from row 0,
wrapping from row 7 back to row 0 (row `k % 8` at step `k`); with action
`close` it writes the rows in reverse cyclic order with the symmetric wrap
from row 0 to row 7 (row `(8 - k % 8) % 8` at step `k`, so step 1 reaches
the last row); afterwards it returns the requested action as the new door
state. -/
theorem turn_motor_row_order (n : Nat) (now : Datetime) :
    turn_motor .opened seq_half n now =
      .ok ((List.range n).map (fun k => rowAt (k % 8)), ⟨.opened, now⟩) ∧
    turn_motor .closed seq_half n now =
      .ok ((List.range n).map (fun k => rowAt ((8 - k % 8) % 8)), ⟨.closed, now⟩) := by
  constructor
  · have h := turn_motor_loop_open n 0 (by omega)
    simp only [Nat.cast_zero, zero_add] at h
    simp only [turn_motor]
    rw [h]
    simp [Except.map]
  · have h := turn_motor_loop_close n 0 (by omega)
    simp only [Nat.cast_zero, neg_zero, zero_add] at h
    simp only [turn_motor]
    rw [h]
    simp [Except.map]

/-! Section: Claim C3: trend classification -/

/-- The running counters of `trend_check`'s loop compute the pairwise
increase/decrease counts of the whole window. -/
theorem trend_check_loop_spec (rest : List ℚ) :
    ∀ (val : ℚ) (i d : Nat),
      trend_check_loop val rest i d =
        (i + increaseCount (val :: rest), d + decreaseCount (val :: rest)) := by
  induction rest with
  | nil =>
    intro val i d
    simp [trend_check_loop, increaseCount, decreaseCount]
  | cons r more ih =>
    intro val i d
    by_cases h : val < r
    · have e1 : increaseCount (val :: r :: more) = increaseCount (r :: more) + 1 := by
        simp [increaseCount, List.countP_cons, h]
      have e2 : decreaseCount (val :: r :: more) = decreaseCount (r :: more) := by
        simp [decreaseCount, List.countP_cons, h]
      simp only [trend_check_loop, if_pos h, ih, e1, e2, Prod.mk.injEq,
        and_true, true_and]
      omega
    · have e1 : increaseCount (val :: r :: more) = increaseCount (r :: more) := by
        simp [increaseCount, List.countP_cons, h]
      have e2 : decreaseCount (val :: r :: more) = decreaseCount (r :: more) + 1 := by
        simp [decreaseCount, List.countP_cons, h]
      simp only [trend_check_loop, if_neg h, ih, e1, e2, Prod.mk.injEq,
        and_true, true_and]
      omega

/-- Claim C3: on a window of length at least 2, `trend_check` returns the
candidate action `close` exactly when no pairwise step increased, `open`
exactly when some step increased and none decreased (ties count as
non-increase), and no action exactly when both kinds of step occur; the
returned window is the tail of the input. -/
theorem trend_check_classification (l : List ℚ) (hlen : 2 ≤ l.length) :
    (trend_check l = .ok (some Door.closed, l.tail) ↔ increaseCount l = 0) ∧
    (trend_check l = .ok (some Door.opened, l.tail) ↔
      0 < increaseCount l ∧ decreaseCount l = 0) ∧
    (trend_check l = .ok (none, l.tail) ↔
      0 < increaseCount l ∧ 0 < decreaseCount l) := by
  rcases l with _ | ⟨v, rest⟩
  · simp at hlen
  · simp only [trend_check, trend_check_loop_spec rest v 0 0, Nat.zero_add,
      List.tail_cons]
    by_cases h1 : increaseCount (v :: rest) = 0 <;>
      by_cases h2 : decreaseCount (v :: rest) = 0 <;>
        simp [h1, h2, Nat.pos_of_ne_zero]

/-- Witness for C3 on the strictly decreasing window `[5, 4, 3, 2, 1]`. -/
theorem trend_check_classification_witness :
    (2 ≤ ([5, 4, 3, 2, 1] : List ℚ).length) ∧
    (trend_check [5, 4, 3, 2, 1]
        = .ok (some Door.closed, ([5, 4, 3, 2, 1] : List ℚ).tail)
      ↔ increaseCount [5, 4, 3, 2, 1] = 0) :=
  ⟨by decide, (trend_check_classification [5, 4, 3, 2, 1] (by decide)).1⟩

/-! Section: Claim C6 (amended): check windows are the frames shifted back 1h30m -/

/-- Claim C6 as amended: for every CLI-range configuration on which
construction succeeds (open hours at least 2), the pre-check windows are
the action frames shifted back 1 hour 30 minutes (hour minus 2, minutes
set to 30), and the hard deadlines equal `late_open` / `late_close`, that
is, the frame end bounds. -/
theorem coop_check_windows_amended (a b c d : Int)
    (ha2 : 2 ≤ a) (ha : a ≤ 12) (hb2 : 2 ≤ b) (hb : b ≤ 12)
    (hc13 : 13 ≤ c) (hc : c ≤ 23) (hd13 : 13 ≤ d) (hd : d ≤ 23) :
    ∃ tf, TimeFrame.init a b c d = .ok tf ∧
      tf.open_check.1 = sub_minutes tf.open_frame.1 90 ∧
      tf.open_check.2 = sub_minutes tf.open_frame.2 90 ∧
      tf.close_check.1 = sub_minutes tf.close_frame.1 90 ∧
      tf.close_check.2 = sub_minutes tf.close_frame.2 90 ∧
      tf.open_limit = ⟨b, 0⟩ ∧ tf.close_limit = ⟨d, 0⟩ ∧
      tf.open_limit = tf.open_frame.2 ∧ tf.close_limit = tf.close_frame.2 := by
  have dt : ∀ h m : Int, 0 ≤ h → h ≤ 23 → 0 ≤ m → m ≤ 59 →
      datetime_time h m = .ok ⟨h, m⟩ := by
    intro h m h0 h1 h2 h3
    unfold datetime_time
    rw [if_pos]
    exact ⟨h0, h1, h2, h3⟩
  refine ⟨⟨(⟨a, 0⟩, ⟨b, 0⟩), (⟨a - 2, 30⟩, ⟨b - 2, 30⟩), (⟨c, 0⟩, ⟨d, 0⟩),
      (⟨c - 2, 30⟩, ⟨d - 2, 30⟩), ⟨b, 0⟩, ⟨d, 0⟩⟩, ?_, ?_, ?_, ?_, ?_, rfl, rfl, rfl, rfl⟩
  · simp only [TimeFrame.init,
      dt a 0 (by omega) (by omega) (by omega) (by omega),
      dt b 0 (by omega) (by omega) (by omega) (by omega),
      dt (a - 2) 30 (by omega) (by omega) (by omega) (by omega),
      dt (b - 2) 30 (by omega) (by omega) (by omega) (by omega),
      dt c 0 (by omega) (by omega) (by omega) (by omega),
      dt d 0 (by omega) (by omega) (by omega) (by omega),
      dt (c - 2) 30 (by omega) (by omega) (by omega) (by omega),
      dt (d - 2) 30 (by omega) (by omega) (by omega) (by omega)]
    rfl
  · simp only [sub_minutes, Time.mk.injEq]
    omega
  · simp only [sub_minutes, Time.mk.injEq]
    omega
  · simp only [sub_minutes, Time.mk.injEq]
    omega
  · simp only [sub_minutes, Time.mk.injEq]
    omega

/-- Witness for the amended C6 at the default configuration. -/
theorem coop_check_windows_amended_witness :
    ∃ tf, TimeFrame.init 5 7 17 20 = .ok tf ∧
      tf.open_check.1 = sub_minutes tf.open_frame.1 90 ∧
      tf.open_check.2 = sub_minutes tf.open_frame.2 90 ∧
      tf.close_check.1 = sub_minutes tf.close_frame.1 90 ∧
      tf.close_check.2 = sub_minutes tf.close_frame.2 90 ∧
      tf.open_limit = ⟨7, 0⟩ ∧ tf.close_limit = ⟨20, 0⟩ ∧
      tf.open_limit = tf.open_frame.2 ∧ tf.close_limit = tf.close_frame.2 :=
  coop_check_windows_amended 5 7 17 20 (by norm_num) (by norm_num) (by norm_num)
    (by norm_num) (by norm_num) (by norm_num) (by norm_num) (by norm_num)

/-! Section: Claim C7: state-log round trip -/

/-- Every `dchar` value is one of the ten digit characters. -/
theorem dchar_cases (m : Nat) : ∃ k, k < 10 ∧ dchar m = dchar k := by
  rcases Nat.lt_or_ge m 10 with h | h
  · exact ⟨m, h, rfl⟩
  · obtain ⟨j, rfl⟩ : ∃ j, m = j + 10 := ⟨m - 10, by omega⟩
    exact ⟨9, by omega, rfl⟩

/-- Digit characters are not carriage return. -/
theorem cr_ne_dchar (m : Nat) : ('\r' = dchar m) = False := by
  obtain ⟨k, hk, he⟩ := dchar_cases m
  rw [he]
  have : ∀ k : Nat, k < 10 → ¬ ('\r' = dchar k) := by decide
  simp [this k hk]

/-- Digit characters are not newline. -/
theorem nl_ne_dchar (m : Nat) : ('\n' = dchar m) = False := by
  obtain ⟨k, hk, he⟩ := dchar_cases m
  rw [he]
  have : ∀ k : Nat, k < 10 → ¬ ('\n' = dchar k) := by decide
  simp [this k hk]

/-- Digit characters are not the letter d. -/
theorem d_ne_dchar (m : Nat) : ('d' = dchar m) = False := by
  obtain ⟨k, hk, he⟩ := dchar_cases m
  rw [he]
  have : ∀ k : Nat, k < 10 → ¬ ('d' = dchar k) := by decide
  simp [this k hk]

/-- Digit characters are not whitespace. -/
theorem pyIsSpace_dchar (m : Nat) : pyIsSpace (dchar m) = false := by
  obtain ⟨k, hk, he⟩ := dchar_cases m
  rw [he]
  have : ∀ k : Nat, k < 10 → pyIsSpace (dchar k) = false := by decide
  exact this k hk

/-- Digit characters are not newline (symmetric orientation). -/
theorem dchar_ne_nl (m : Nat) : (dchar m = '\n') = False := by
  obtain ⟨k, hk, he⟩ := dchar_cases m
  rw [he]
  have : ∀ k : Nat, k < 10 → ¬ (dchar k = '\n') := by decide
  simp [this k hk]

/-- Digit characters are not carriage return (symmetric orientation). -/
theorem dchar_ne_cr (m : Nat) : (dchar m = '\r') = False := by
  obtain ⟨k, hk, he⟩ := dchar_cases m
  rw [he]
  have : ∀ k : Nat, k < 10 → ¬ (dchar k = '\r') := by decide
  simp [this k hk]

/-- The serialized timestamp contains no carriage return. -/
theorem cr_not_mem_fmt (t : Datetime) : '\r' ∉ fmt_datetime t := by
  simp [fmt_datetime, pad2, pad4, s2l, cr_ne_dchar]

/-- The serialized timestamp contains no newline. -/
theorem nl_not_mem_fmt (t : Datetime) : '\n' ∉ fmt_datetime t := by
  simp [fmt_datetime, pad2, pad4, s2l, nl_ne_dchar]

/-- The serialized timestamp contains no letter d. -/
theorem d_not_mem_fmt (t : Datetime) : 'd' ∉ fmt_datetime t := by
  simp [fmt_datetime, pad2, pad4, s2l, d_ne_dchar]

/-- The function `replace('\r', '\n')` is the identity on carriage-return-free text. -/
theorem replace_cr_id (l : List Char) (h : ∀ c ∈ l, c ≠ '\r') :
    replace_cr l = l := by
  induction l with
  | nil => rfl
  | cons c rest ih =>
    rw [replace_cr, if_neg (h c (List.mem_cons_self c rest)),
      ih (fun x hx => h x (List.mem_cons_of_mem c hx))]

/-- The function `replace('\n\n', '\n')` passes over a newline-free prefix. -/
theorem replace_nlnl_append (l : List Char) : ∀ m : List Char,
    (∀ c ∈ l, c ≠ '\n') → replace_nlnl (l ++ m) = l ++ replace_nlnl m := by
  induction l with
  | nil => intro m _; rfl
  | cons c rest ih =>
    intro m h
    have hc : c ≠ '\n' := h c (List.mem_cons_self c rest)
    cases hrm : rest ++ m with
    | nil =>
      rcases List.append_eq_nil.mp hrm with ⟨rfl, rfl⟩
      rfl
    | cons c2 rest2 =>
      have : replace_nlnl (c :: c2 :: rest2) = c :: replace_nlnl (c2 :: rest2) := by
        rw [replace_nlnl, if_neg (fun hand => hc hand.1)]
      rw [List.cons_append, hrm, this, ← hrm,
        ih m (fun x hx => h x (List.mem_cons_of_mem c hx))]
      rfl

/-- Worker of `split('\n')` passes over a newline-free prefix, accumulating
it. -/
theorem split_nl_aux_append (l : List Char) : ∀ (acc m : List Char),
    (∀ c ∈ l, c ≠ '\n') →
    split_nl_aux acc (l ++ m) = split_nl_aux (l.reverse ++ acc) m := by
  induction l with
  | nil => intro acc m _; rfl
  | cons c rest ih =>
    intro acc m h
    have hc : c ≠ '\n' := h c (List.mem_cons_self c rest)
    rw [List.cons_append, split_nl_aux, if_neg hc,
      ih (c :: acc) m (fun x hx => h x (List.mem_cons_of_mem c hx))]
    simp [List.append_assoc]

/-- Splitting `split('\n')` of a two-line text with newline-free lines. -/
theorem split_nl_two_lines (l1 l2 : List Char)
    (h1 : ∀ c ∈ l1, c ≠ '\n') (h2 : ∀ c ∈ l2, c ≠ '\n') :
    split_nl (l1 ++ '\n' :: l2) = [l1, l2] := by
  unfold split_nl
  rw [split_nl_aux_append l1 [] ('\n' :: l2) h1, split_nl_aux, if_pos rfl]
  have hl2 : split_nl_aux [] (l2 ++ []) = split_nl_aux (l2.reverse ++ []) [] :=
    split_nl_aux_append l2 [] [] h2
  simp only [List.append_nil] at hl2
  rw [hl2]
  simp [split_nl_aux]

/-- Substring containment holds when the pattern is a prefix. -/
theorem py_contains_of_prefix (pat : List Char) (l : List Char)
    (h : pat.isPrefixOf l = true) : py_contains pat l = true := by
  cases l with
  | nil =>
    cases pat with
    | nil => rfl
    | cons p ps => simp [List.isPrefixOf] at h
  | cons c rest => simp [py_contains, h]

/-- Substring containment fails when the pattern's first character occurs
nowhere in the text. -/
theorem py_contains_head_ne (p : Char) (pat l : List Char)
    (h : ∀ c ∈ l, c ≠ p) : py_contains (p :: pat) l = false := by
  induction l with
  | nil => simp [py_contains]
  | cons c rest ih =>
    have hc : p ≠ c := Ne.symm (h c (List.mem_cons_self c rest))
    simp [py_contains, List.isPrefixOf, hc,
      ih (fun x hx => h x (List.mem_cons_of_mem c hx))]

/-- Digit characters are none of Python's whitespace characters. -/
theorem dchar_not_space_chars (m : Nat) :
    (dchar m = ' ') = False ∧ (dchar m = '\t') = False ∧ (dchar m = '\n') = False ∧
    (dchar m = '\r') = False ∧ (dchar m = '\x0b') = False ∧ (dchar m = '\x0c') = False := by
  obtain ⟨k, hk, he⟩ := dchar_cases m
  rw [he]
  have : ∀ k : Nat, k < 10 → dchar k ≠ ' ' ∧ dchar k ≠ '\t' ∧ dchar k ≠ '\n' ∧
      dchar k ≠ '\r' ∧ dchar k ≠ '\x0b' ∧ dchar k ≠ '\x0c' := by decide
  obtain ⟨a1, a2, a3, a4, a5, a6⟩ := this k hk
  simp [a1, a2, a3, a4, a5, a6]

/-- Splitting `split(maxsplit=1)` of a serialized `time` line: the `time:` token and
the full timestamp text. -/
theorem py_split_ws1_time_line (t : Datetime) :
    py_split_ws1 (s2l "time: " ++ fmt_datetime t) = [s2l "time:", fmt_datetime t] := by
  simp [py_split_ws1, s2l, fmt_datetime, pad2, pad4, pyIsSpace,
    dchar_not_space_chars, List.takeWhile, List.dropWhile]

/-- The key-latching loop of `check_door_state` on the two serialized
lines yields the door-state token and the timestamp text. -/
theorem parse_state_two_lines (d : Door) (t : Datetime) :
    parse_state_lines
      [s2l "door_state: " ++ door_str d, s2l "time: " ++ fmt_datetime t]
      (s2l "", s2l "") = .ok (door_str d, fmt_datetime t) := by
  have hc1 : py_contains (s2l "door_state") (s2l "door_state: " ++ door_str d)
      = true := by
    cases d <;> decide
  have hlast1 : (py_split_ws (s2l "door_state: " ++ door_str d)).getLast?
      = some (door_str d) := by
    cases d <;> decide
  have hno_d : ∀ c ∈ s2l "time: " ++ fmt_datetime t, c ≠ 'd' := by
    intro c hc
    rcases List.mem_append.mp hc with h | h
    · have : ∀ x ∈ s2l "time: ", x ≠ 'd' := by decide
      exact this c h
    · exact fun he => d_not_mem_fmt t (he ▸ h)
  have hnc2 : py_contains (s2l "door_state") (s2l "time: " ++ fmt_datetime t)
      = false := by
    rw [show s2l "door_state" = 'd' :: s2l "oor_state" from rfl]
    exact py_contains_head_ne 'd' _ _ hno_d
  have hc2 : py_contains (s2l "time") (s2l "time: " ++ fmt_datetime t) = true := by
    apply py_contains_of_prefix
    simp [s2l, List.isPrefixOf]
  have hws1 : (py_split_ws1 (s2l "time: " ++ fmt_datetime t)).getLast?
      = some (fmt_datetime t) := by
    rw [py_split_ws1_time_line]
    simp
  simp only [parse_state_lines, hc1, hlast1, hnc2, hc2, hws1, if_true, if_false]
  simp

/-- Reading back a serialized state file parses the door-state token and
the timestamp text exactly. -/
theorem check_door_state_content (d : Door) (t : Datetime)
    (inputs : List (List Char)) (now : Datetime) :
    check_door_state (some (set_door_state (door_str d) t)) inputs now
      = .ok ⟨door_str d, .str (fmt_datetime t)⟩ := by
  have h1nl : ∀ c ∈ s2l "door_state: " ++ door_str d, c ≠ '\n' := by
    cases d <;> decide
  have h1cr : ∀ c ∈ s2l "door_state: " ++ door_str d, c ≠ '\r' := by
    cases d <;> decide
  have h2nl : ∀ c ∈ s2l "time: " ++ fmt_datetime t, c ≠ '\n' := by
    intro c hc
    rcases List.mem_append.mp hc with h | h
    · have : ∀ x ∈ s2l "time: ", x ≠ '\n' := by decide
      exact this c h
    · exact fun he => nl_not_mem_fmt t (he ▸ h)
  have h2cr : ∀ c ∈ s2l "time: " ++ fmt_datetime t, c ≠ '\r' := by
    intro c hc
    rcases List.mem_append.mp hc with h | h
    · have : ∀ x ∈ s2l "time: ", x ≠ '\r' := by decide
      exact this c h
    · exact fun he => cr_not_mem_fmt t (he ▸ h)
  have hcontent : set_door_state (door_str d) t
      = (s2l "door_state: " ++ door_str d)
          ++ '\n' :: (s2l "time: " ++ fmt_datetime t) := by
    simp [set_door_state, List.append_assoc]
  have hcr : replace_cr (set_door_state (door_str d) t)
      = set_door_state (door_str d) t := by
    apply replace_cr_id
    rw [hcontent]
    intro c hc
    rcases List.mem_append.mp hc with h | h
    · exact h1cr c h
    · rcases List.mem_cons.mp h with rfl | h
      · decide
      · exact h2cr c h
  have hnl2 : replace_nlnl ('\n' :: (s2l "time: " ++ fmt_datetime t))
      = '\n' :: (s2l "time: " ++ fmt_datetime t) := by
    rw [show s2l "time: " ++ fmt_datetime t
        = 't' :: (s2l "ime: " ++ fmt_datetime t) from rfl]
    rw [replace_nlnl, if_neg (by simp)]
    rw [show ('t' :: (s2l "ime: " ++ fmt_datetime t))
        = (s2l "time: " ++ fmt_datetime t) from rfl]
    rw [show s2l "time: " ++ fmt_datetime t
        = (s2l "time: " ++ fmt_datetime t) ++ [] by simp]
    rw [replace_nlnl_append _ [] h2nl]
    rfl
  have hrepl : replace_nlnl (set_door_state (door_str d) t)
      = set_door_state (door_str d) t := by
    rw [hcontent, replace_nlnl_append _ _ h1nl, hnl2]
  have hsplit : split_nl (set_door_state (door_str d) t)
      = [s2l "door_state: " ++ door_str d, s2l "time: " ++ fmt_datetime t] := by
    rw [hcontent]
    exact split_nl_two_lines _ _ h1nl h2nl
  simp only [check_door_state]
  rw [hcr, hrepl, hsplit, parse_state_two_lines]
  rfl

/-- Digit characters distinguish digits. -/
theorem dchar_inj : ∀ a : Nat, a < 10 → ∀ b : Nat, b < 10 → dchar a = dchar b → a = b := by
  decide

/-- The serialized format determines the timestamp to seconds precision on
the field ranges the `datetime` constructor enforces. -/
theorem fmt_datetime_inj (t1 t2 : Datetime) (h1 : validDT t1) (h2 : validDT t2)
    (he : fmt_datetime t1 = fmt_datetime t2) : truncSec t1 = truncSec t2 := by
  unfold validDT at h1 h2
  obtain ⟨y1a, y1b, m1a, m1b, d1a, d1b, hh1, mi1, s1, -⟩ := h1
  obtain ⟨y2a, y2b, m2a, m2b, d2a, d2b, hh2, mi2, s2, -⟩ := h2
  simp [fmt_datetime, pad2, pad4, s2l] at he
  obtain ⟨e1, e2, e3, e4, e5, e6, e7, e8, e9, e10, e11, e12, e13, e14⟩ := he
  have f1 := dchar_inj _ (by omega) _ (by omega) e1
  have f2 := dchar_inj _ (by omega) _ (by omega) e2
  have f3 := dchar_inj _ (by omega) _ (by omega) e3
  have f4 := dchar_inj _ (by omega) _ (by omega) e4
  have f5 := dchar_inj _ (by omega) _ (by omega) e5
  have f6 := dchar_inj _ (by omega) _ (by omega) e6
  have f7 := dchar_inj _ (by omega) _ (by omega) e7
  have f8 := dchar_inj _ (by omega) _ (by omega) e8
  have f9 := dchar_inj _ (by omega) _ (by omega) e9
  have f10 := dchar_inj _ (by omega) _ (by omega) e10
  have f11 := dchar_inj _ (by omega) _ (by omega) e11
  have f12 := dchar_inj _ (by omega) _ (by omega) e12
  have f13 := dchar_inj _ (by omega) _ (by omega) e13
  have f14 := dchar_inj _ (by omega) _ (by omega) e14
  simp only [truncSec, Prod.mk.injEq]
  refine ⟨?_, ?_, ?_, ?_, ?_, ?_⟩ <;> omega

/-- Claim C7: writing a door state and a timestamp through
`StateLogManager` and reading the same path back with `check_door_state`
returns the same door-state string and the serialized timestamp text, and
that text determines the written timestamp to the serialized (seconds)
precision. -/
theorem state_log_round_trip (fs : List (List Char × List Char))
    (path : List Char) (d : Door) (t : Datetime) (hv : validDT t)
    (inputs : List (List Char)) (now : Datetime) :
    check_door_state (fs_read (state_log_manager fs path d t) path) inputs now
      = .ok ⟨door_str d, .str (fmt_datetime t)⟩ ∧
    (∀ t2 : Datetime, validDT t2 → fmt_datetime t = fmt_datetime t2 →
      truncSec t = truncSec t2) := by
  constructor
  · have hread : fs_read (state_log_manager fs path d t) path
        = some (set_door_state (door_str d) t) := by
      simp [state_log_manager, fs_write, fs_read]
    rw [hread, check_door_state_content]
  · intro t2 h2 he
    exact fmt_datetime_inj t t2 hv h2 he

/-- Witness for C7: write then read the open state at timestamp
12/01/2020, 06:15:03. -/
theorem state_log_round_trip_witness :
    validDT dt0 ∧
    check_door_state (fs_read (state_log_manager [] (s2l "p") .opened dt0)
        (s2l "p")) [] dt0
      = .ok ⟨s2l "open", .str (s2l "12/01/2020, 06:15:03")⟩ :=
  ⟨by decide,
    ((state_log_round_trip [] (s2l "p") .opened dt0 (by decide) [] dt0).1).trans
      (by decide)⟩
